import Mathlib

/-!
Verification of the startup-investments analytics pipeline of this
repository (src/SIAapp.py and src/app1.py): schema normalization with
numeric coercion, multi-path dataset loading, and the derived analytic
views (top-N grouped sums, funding trend, status distribution,
rounds-vs-funding correlation, correlation matrix).

Modelling conventions. A raw table cell is a `Cell`: a cell whose text
parses as a number under pandas' `to_numeric` is `num q` (q the exact
rational value), a cell whose text does not parse is `str s`, and a
missing cell (NaN) is `na`. A data frame is an ordered list of named
columns. Pandas' float NaN results (undefined correlations, missing
group keys) are modelled with `Option`; real-valued Pearson correlations
live in `ℝ`, all bookkeeping (means, variances, sums) in `ℚ`.
-/

namespace SIA

/-- A raw cell of the input table as pandas sees it after read_csv. -/
inductive Cell where
  | num (q : ℚ)
  | str (s : String)
  | na
deriving DecidableEq, Repr

/-- A data frame: ordered columns, each a name paired with its cells. -/
abbrev Frame := List (String × List Cell)

/-- The frame's column names (df.columns). -/
def colNames (f : Frame) : List String := f.map Prod.fst

/-- The cells of a named column, when present (df.get(c)). -/
def lookupCol (f : Frame) (c : String) : Option (List Cell) :=
  (f.find? (fun p => p.1 = c)).map Prod.snd

/-- The frame's row count (len(df)): the length of its first column. -/
def frameRows (f : Frame) : Nat :=
  match f with
  | [] => 0
  | p :: _ => p.2.length

/-- pd.to_numeric(·, errors='coerce') on one cell: a numeric cell keeps
its value; any unparseable or missing cell becomes NaN (`none`). -/
def to_numeric_coerce (c : Cell) : Option ℚ :=
  match c with
  | .num q => some q
  | .str _ => none
  | .na => none

/-- astype(int) on a finite value: truncation toward zero, as Python's
int() and numpy's float-to-int cast behave. -/
def truncQ (q : ℚ) : Int := if 0 ≤ q then ⌊q⌋ else ⌈q⌉

/-- One cell of a configured numeric column after
pd.to_numeric(·, errors='coerce').fillna(0).astype(dtype): coerce,
replace NaN by 0, and for integer dtypes truncate toward zero. -/
def normalizeCell (isInt : Bool) (c : Cell) : Cell :=
  Cell.num (if isInt then ((truncQ ((to_numeric_coerce c).getD 0) : ℤ) : ℚ)
            else (to_numeric_coerce c).getD 0)

/-- A whole configured numeric column after coercion. -/
def normalizeNumCol (isInt : Bool) (cells : List Cell) : List Cell :=
  cells.map (normalizeCell isInt)

/-- The coercion table shared by both variants: field name with whether
its target dtype is an integer one. -/
def numeric_cols : List (String × Bool) :=
  [("first_funding_year", true), ("funding_total_usd", false), ("funding_rounds", true)]

/-- Coerce a column in place, leaving every other column unchanged
(df[col] = pd.to_numeric(df[col], ...) when col is present). -/
def normalizeColIn (f : Frame) (c : String) (isInt : Bool) : Frame :=
  f.map (fun p => if p.1 = c then (p.1, normalizeNumCol isInt p.2) else p)

/-- load_data of src/SIAapp.py (lines 30-32): for each configured
column, coerce it in place only if it is present in df.columns. -/
def SIAapp_load_data (f : Frame) : Frame :=
  numeric_cols.foldl
    (fun acc cb => if cb.1 ∈ colNames acc then normalizeColIn acc cb.1 cb.2 else acc) f

/-- Column assignment df[c] = cells: replaces the column when present,
appends a new column otherwise. -/
def setCol (f : Frame) (c : String) (cells : List Cell) : Frame :=
  if c ∈ colNames f then f.map (fun p => if p.1 = c then (p.1, cells) else p)
  else f ++ [(c, cells)]

/-- One assignment of app1.py's load_data:
df[c] = pd.to_numeric(df.get(c, pd.Series()), errors='coerce').fillna(0).astype(...).
When the column exists it is coerced in place; when it is absent the
empty placeholder series passes through the pipeline empty and the
assignment's index alignment fills the new column with NaN. -/
def app1_assign (f : Frame) (c : String) (isInt : Bool) : Frame :=
  match lookupCol f c with
  | some cells => setCol f c (normalizeNumCol isInt cells)
  | none => setCol f c (List.replicate (frameRows f) Cell.na)

/-- load_data of src/app1.py (lines 16-18): assigns all three configured
columns unconditionally. -/
def app1_load_data (f : Frame) : Frame :=
  numeric_cols.foldl (fun acc cb => app1_assign acc cb.1 cb.2) f

/-- A normalized investment record, one row of the loaded dataset.
`country` is `none` when the row's country cell is missing (NaN). -/
structure Record where
  name : String
  country : Option String
  funding_total_usd : ℚ
  funding_rounds : Int
  first_funding_year : Int
deriving DecidableEq, Repr

/-- A loaded dataset: its records plus the status column when the
source structurally contains one (`none` = no status column; a cell is
`none` when that row's status is missing). -/
structure Dataset where
  records : List Record
  statusCol : Option (List (Option String))

/-- Descending-by-value order on keyed rational sums (used by
Series.nlargest, which returns values in descending order). -/
def geQ (a b : String × ℚ) : Prop := b.2 ≤ a.2

instance : DecidableRel geQ := fun a b => inferInstanceAs (Decidable (b.2 ≤ a.2))

instance : IsTotal (String × ℚ) geQ := ⟨fun a b => le_total b.2 a.2⟩

instance : IsTrans (String × ℚ) geQ := ⟨fun _ _ _ h1 h2 => le_trans h2 h1⟩

/-- Descending-by-value order on keyed counts (used by
Series.value_counts, which sorts counts descending). -/
def geN (a b : String × Nat) : Prop := b.2 ≤ a.2

instance : DecidableRel geN := fun a b => inferInstanceAs (Decidable (b.2 ≤ a.2))

instance : IsTotal (String × Nat) geN := ⟨fun a b => le_total b.2 a.2⟩

instance : IsTrans (String × Nat) geN := ⟨fun _ _ _ h1 h2 => le_trans h2 h1⟩

/-- The distinct values of a total group key, in the sorted order
pandas' groupby produces (sort=True is the default). -/
def groupKeys (key : Record → String) (l : List Record) : List String :=
  List.insertionSort (fun a b => a ≤ b) ((l.map key).dedup)

/-- The exact arithmetic sum of funding_total_usd over one group. -/
def groupSum (key : Record → String) (l : List Record) (k : String) : ℚ :=
  ((l.filter (fun r => key r = k)).map Record.funding_total_usd).sum

/-- df.groupby(key)['funding_total_usd'].sum(): one entry per distinct
key, keys sorted, each paired with its group's exact sum. -/
def groupbySum (key : Record → String) (l : List Record) : List (String × ℚ) :=
  (groupKeys key l).map (fun k => (k, groupSum key l k))

/-- Series.nlargest(n): the n largest entries by value, descending. -/
def nlargestQ (n : Nat) (s : List (String × ℚ)) : List (String × ℚ) :=
  (List.insertionSort geQ s).take n

/-- The top-N-by-summed-funding view (show_top_companies of SIAapp.py
and the Top Funded Companies tab of app1.py, with key = name; the
by-country variants use the country key through `groupbyCountrySum`). -/
def topEntitiesByFundingSum (key : Record → String) (n : Nat) (l : List Record) :
    List (String × ℚ) :=
  nlargestQ n (groupbySum key l)

/-- The distinct present country keys, sorted; records whose country is
missing (NaN) contribute no key, as pandas' groupby drops NaN keys. -/
def countryKeys (l : List Record) : List String :=
  List.insertionSort (fun a b => a ≤ b) ((l.filterMap Record.country).dedup)

/-- The exact sum of funding over the records of one country. -/
def countrySum (l : List Record) (k : String) : ℚ :=
  ((l.filter (fun r => r.country = some k)).map Record.funding_total_usd).sum

/-- df.groupby('country')['funding_total_usd'].sum(): one entry per
present country; records with a missing country appear in no group. -/
def groupbyCountrySum (l : List Record) : List (String × ℚ) :=
  (countryKeys l).map (fun k => (k, countrySum l k))

/-- The dataset's total funding (df['funding_total_usd'].sum()). -/
def totalFunding (l : List Record) : ℚ :=
  (l.map Record.funding_total_usd).sum

/-- Whether a record's country is one of the given keys (false for a
missing country); the union of the groups of those keys. -/
def hasCountryIn (ks : List String) (r : Record) : Bool :=
  match r.country with
  | some c => c ∈ ks
  | none => false

/-- The records passing the trend filter df['first_funding_year'] > 1980. -/
def trendFiltered (l : List Record) : List Record :=
  l.filter (fun r => 1980 < r.first_funding_year)

/-- The funding sum of one year among the filtered records. -/
def yearSum (l : List Record) (y : Int) : ℚ :=
  (((trendFiltered l).filter (fun r => r.first_funding_year = y)).map
    Record.funding_total_usd).sum

/-- show_funding_trends / the Funding Trends tab:
df[df['first_funding_year'] > 1980].groupby('first_funding_year')['funding_total_usd'].sum(),
a series of (year, total) sorted ascending by year. -/
def fundingTrend (l : List Record) : List (Int × ℚ) :=
  (List.insertionSort (fun a b => a ≤ b)
    (((trendFiltered l).map Record.first_funding_year).dedup)).map
    (fun y => (y, yearSum l y))

/-- Series.value_counts(): occurrences per distinct non-missing value,
sorted by count descending; missing (NaN) cells are dropped, an empty
string is an ordinary value with its own count. -/
def value_counts (cells : List (Option String)) : List (String × Nat) :=
  List.insertionSort geN
    (((cells.filterMap id).dedup).map (fun v => (v, (cells.filterMap id).count v)))

/-- show_status_distribution / the Startup Status tab: if 'status' is in
df.columns the value counts are computed, otherwise the view reports the
column unavailable (`none`). -/
def statusDistribution (d : Dataset) : Option (List (String × Nat)) :=
  d.statusCol.map value_counts

/-- Mean of a list of rationals (Series.mean). -/
def meanQ (xs : List ℚ) : ℚ := xs.sum / (xs.length : ℚ)

/-- Unnormalized covariance of two paired samples; the normalization
constant cancels in the Pearson ratio. -/
def covQ (xs ys : List ℚ) : ℚ :=
  ((xs.zip ys).map (fun p => (p.1 - meanQ xs) * (p.2 - meanQ ys))).sum

/-- Unnormalized variance of a sample. -/
def varQ (xs : List ℚ) : ℚ := covQ xs xs

/-- The Pearson correlation coefficient, covariance over the product of
standard deviations, as an exact real number. -/
noncomputable def pearsonR (xs ys : List ℚ) : ℝ :=
  ((covQ xs ys : ℚ) : ℝ) / (Real.sqrt ((varQ xs : ℚ) : ℝ) * Real.sqrt ((varQ ys : ℚ) : ℝ))

/-- Series.corr: NaN (`none`) whenever either series has zero variance,
which covers every sample of fewer than two points; otherwise the
Pearson coefficient. -/
noncomputable def corrQ (xs ys : List ℚ) : Option ℝ :=
  if varQ xs = 0 ∨ varQ ys = 0 then none else some (pearsonR xs ys)

/-- The filter df[(df['funding_rounds'] > 0) & (df['funding_total_usd'] > 0)]. -/
def filtRF (l : List Record) : List Record :=
  l.filter (fun r => 0 < r.funding_rounds ∧ 0 < r.funding_total_usd)

/-- The funding_rounds column as rationals. -/
def roundsCol (l : List Record) : List ℚ :=
  l.map (fun r => ((r.funding_rounds : ℤ) : ℚ))

/-- The funding_total_usd column. -/
def fundingCol (l : List Record) : List ℚ :=
  l.map Record.funding_total_usd

/-- The first_funding_year column as rationals. -/
def yearColQ (l : List Record) : List ℚ :=
  l.map (fun r => ((r.first_funding_year : ℤ) : ℚ))

/-- The result of the rounds-vs-funding view: either the explicit
insufficient-data warning, or a scatter point set with the correlation
printed in the title (`none` = NaN). -/
inductive RoundsVsFundingView where
  | insufficient
  | plot (pts : List (ℚ × ℚ)) (corr : Option ℝ)

/-- show_funding_vs_rounds of src/SIAapp.py (lines 106-114): filters,
then computes and displays the correlation unconditionally. -/
noncomputable def SIAapp_roundsVsFunding (l : List Record) : RoundsVsFundingView :=
  RoundsVsFundingView.plot
    ((roundsCol (filtRF l)).zip (fundingCol (filtRF l)))
    (corrQ (roundsCol (filtRF l)) (fundingCol (filtRF l)))

/-- The Funding Rounds vs Total tab of src/app1.py (lines 95-104):
warns "Not enough data" exactly when df2 is empty, otherwise computes
the correlation. -/
noncomputable def app1_roundsVsFunding (l : List Record) : RoundsVsFundingView :=
  if filtRF l = [] then RoundsVsFundingView.insufficient
  else
    RoundsVsFundingView.plot
      ((roundsCol (filtRF l)).zip (fundingCol (filtRF l)))
      (corrQ (roundsCol (filtRF l)) (fundingCol (filtRF l)))

/-- The fixed field triple of show_correlation_heatmap:
df[['funding_total_usd', 'funding_rounds', 'first_funding_year']]. -/
def corrFields (l : List Record) : List (List ℚ) :=
  [fundingCol l, roundsCol l, yearColQ l]

/-- The i-th field of the correlation triple. -/
def fieldAt (l : List Record) (i : Nat) : List ℚ :=
  (corrFields l).getD i []

/-- show_correlation_heatmap of src/SIAapp.py (lines 127-133): the
pairwise correlation matrix df[fields].corr(), entry (i, j) the
correlation of field i with field j (NaN = `none`). -/
noncomputable def corrMatrix (l : List Record) : List (List (Option ℝ)) :=
  (corrFields l).map (fun xs => (corrFields l).map (fun ys => corrQ xs ys))

/-- Entry (i, j) of the correlation matrix. -/
noncomputable def matEntry (l : List Record) (i j : Nat) : Option ℝ :=
  (((corrMatrix l).getD i []).getD j none)

/-- DEFAULT_DATA_PATH of SIAapp.py. -/
def DEFAULT_DATA_PATH : String := "cleaned_investments!.csv"

/-- ALTERNATE_DATA_PATH of SIAapp.py. -/
def ALTERNATE_DATA_PATH : String := "./.devcontainer/cleaned_investments!.csv"

/-- possible_paths of try_load_data. -/
def possible_paths : List String := [DEFAULT_DATA_PATH, ALTERNATE_DATA_PATH]

/-- try_load_data of src/SIAapp.py (lines 40-51), over an abstract
filesystem: `ex` is os.path.exists, `ld` is load_data (which yields
`none` when the located file fails to parse). The first existing
candidate is loaded; if none exists the result is `none`, not an
exception. -/
def try_load_data (ex : String → Bool) (ld : String → Option Frame) :
    List String → Option Frame
  | [] => none
  | p :: rest => if ex p then ld p else try_load_data ex ld rest

/-- Whether main proceeds to the analytics sections: main of
src/SIAapp.py (lines 146-149) returns early on `df is None or df.empty`. -/
inductive MainOutcome where
  | loadFailed
  | dashboard (f : Frame)
deriving Repr

/-- The load gate of main: analytics run only on a dashboard outcome. -/
def SIAapp_main (ex : String → Bool) (ld : String → Option Frame) : MainOutcome :=
  match try_load_data ex ld possible_paths with
  | none => MainOutcome.loadFailed
  | some f => if frameRows f = 0 then MainOutcome.loadFailed else MainOutcome.dashboard f

/-- Scenario A of the spec: three records (Acme, 100, 1, 2005),
(Acme, 50, 1, 2006), (Beta, 200, 2, 2005). -/
def scenarioA : List Record :=
  [⟨"Acme", none, 100, 1, 2005⟩, ⟨"Acme", none, 50, 1, 2006⟩, ⟨"Beta", none, 200, 2, 2005⟩]

/-- A record whose country cell is missing. -/
def lostRecord : Record := ⟨"Ghost", none, 100, 1, 2005⟩

/-- A single record surviving the rounds/funding filter. -/
def soloRecord : Record := ⟨"Solo", some "US", 100, 1, 2005⟩

/-- A record with funding_rounds = 0. -/
def zeroRoundsRecord : Record := ⟨"Zed", some "US", 100, 0, 2000⟩

/-- Two records whose funding differs, giving the funding field nonzero
variance. -/
def twoRecords : List Record :=
  [⟨"A", some "US", 100, 1, 2005⟩, ⟨"B", some "US", 200, 2, 2006⟩]

/-- A dataset whose negative funding value exercises the absence of
clamping. -/
def negScenario : List Record :=
  [⟨"Acme", some "US", 100, 1, 2005⟩, ⟨"Acme", some "US", -50, 1, 2006⟩]

/-! ### General lemmas about the embedded operations -/

/-- Truncation toward zero is the identity on integers. -/
theorem truncQ_intCast (n : ℤ) : truncQ ((n : ℤ) : ℚ) = n := by
  rw [truncQ]
  split
  · exact_mod_cast Int.floor_intCast n
  · exact_mod_cast Int.ceil_intCast n

/-- Truncation of zero. -/
theorem truncQ_zero : truncQ 0 = 0 := by
  simpa using truncQ_intCast 0

/-- A column-rewriting map that keeps every column's name keeps the
frame's column list. -/
theorem colNames_map_keepFst (g : String × List Cell → String × List Cell)
    (hg : ∀ p, (g p).1 = p.1) (f : Frame) : colNames (f.map g) = colNames f := by
  induction f with
  | nil => rfl
  | cons p t ih => simp [colNames] at ih ⊢; exact ⟨hg p, ih⟩

/-- In-place coercion of one column keeps the column list. -/
theorem colNames_normalizeColIn (f : Frame) (c : String) (b : Bool) :
    colNames (normalizeColIn f c b) = colNames f := by
  apply colNames_map_keepFst
  intro p
  by_cases h : p.1 = c <;> simp [h]

/-- Each step of SIAapp's load loop keeps the column list. -/
theorem colNames_SIAapp_step (f : Frame) (cb : String × Bool) :
    colNames (if cb.1 ∈ colNames f then normalizeColIn f cb.1 cb.2 else f) = colNames f := by
  split
  · exact colNames_normalizeColIn f cb.1 cb.2
  · rfl

/-- The whole load loop of SIAapp keeps the column list. -/
theorem colNames_SIAapp_foldl (cbs : List (String × Bool)) (f : Frame) :
    colNames (cbs.foldl
      (fun acc cb => if cb.1 ∈ colNames acc then normalizeColIn acc cb.1 cb.2 else acc) f)
      = colNames f := by
  induction cbs generalizing f with
  | nil => rfl
  | cons cb t ih => rw [List.foldl_cons, ih, colNames_SIAapp_step]

/-- Membership in the columns after an assignment df[c] = cells. -/
theorem mem_colNames_setCol (f : Frame) (c x : String) (cells : List Cell) :
    x ∈ colNames (setCol f c cells) ↔ x = c ∨ x ∈ colNames f := by
  rw [setCol]
  by_cases hc : c ∈ colNames f
  · rw [if_pos hc,
      colNames_map_keepFst _ (fun p => by by_cases h : p.1 = c <;> simp [h]) f]
    constructor
    · exact Or.inr
    · rintro (rfl | h)
      · exact hc
      · exact h
  · rw [if_neg hc]
    simp [colNames]
    tauto

/-- Membership in the columns after one app1 assignment. -/
theorem mem_colNames_app1_assign (f : Frame) (c x : String) (b : Bool) :
    x ∈ colNames (app1_assign f c b) ↔ x = c ∨ x ∈ colNames f := by
  rcases hl : lookupCol f c with _ | cells <;> simp only [app1_assign, hl] <;>
    exact mem_colNames_setCol f c x _

/-- The columns present after app1's load_data: the three configured
columns are always there, every other name exactly when the source had it. -/
theorem mem_colNames_app1_load (f : Frame) (x : String) :
    x ∈ colNames (app1_load_data f) ↔
      x = "funding_rounds" ∨ x = "funding_total_usd" ∨ x = "first_funding_year"
        ∨ x ∈ colNames f := by
  rw [app1_load_data, numeric_cols]
  simp only [List.foldl_cons, List.foldl_nil]
  rw [mem_colNames_app1_assign, mem_colNames_app1_assign, mem_colNames_app1_assign]

/-- Membership is invariant under insertion sort. -/
theorem mem_insertionSort_iff {α : Type} (r : α → α → Prop) [DecidableRel r]
    (a : α) (l : List α) : a ∈ List.insertionSort r l ↔ a ∈ l :=
  (List.perm_insertionSort r l).mem_iff

/-- Every result row of the top-N view is a group row of the grouped
sum, so its value is that group's exact sum. -/
theorem topEntities_mem_groupby (key : Record → String) (l : List Record) (n : Nat)
    (p : String × ℚ) (hp : p ∈ topEntitiesByFundingSum key n l) :
    p ∈ groupbySum key l := by
  rw [topEntitiesByFundingSum, nlargestQ] at hp
  exact (mem_insertionSort_iff geQ p (groupbySum key l)).1 (List.take_subset n _ hp)

/-- Each row of the grouped sum pairs a key with its exact group sum. -/
theorem groupbySum_value (key : Record → String) (l : List Record)
    (p : String × ℚ) (hp : p ∈ groupbySum key l) : p.2 = groupSum key l p.1 := by
  rw [groupbySum] at hp
  obtain ⟨k, _, rfl⟩ := List.mem_map.1 hp
  rfl

/-- The lengths of the grouped sum and of the distinct key list agree. -/
theorem length_groupbySum (key : Record → String) (l : List Record) :
    (groupbySum key l).length = (groupKeys key l).length := by
  rw [groupbySum, List.length_map]

/-- When n is at least the number of groups, taking the n largest keeps
every group. -/
theorem topEntities_complete (key : Record → String) (l : List Record) (n : Nat)
    (hn : (groupKeys key l).length ≤ n) (k : String) (hk : k ∈ groupKeys key l) :
    (k, groupSum key l k) ∈ topEntitiesByFundingSum key n l := by
  have hlen : (List.insertionSort geQ (groupbySum key l)).length ≤ n := by
    rw [(List.perm_insertionSort geQ (groupbySum key l)).length_eq, length_groupbySum]
    exact hn
  rw [topEntitiesByFundingSum, nlargestQ, List.take_of_length_le hlen,
    mem_insertionSort_iff geQ _ _, groupbySum]
  exact List.mem_map_of_mem _ hk

/-! ### Concrete evaluations -/

/-- The distinct names of scenario A, sorted. -/
theorem groupKeys_scenarioA : groupKeys Record.name scenarioA = ["Acme", "Beta"] := by
  rw [groupKeys]
  rw [show (scenarioA.map Record.name).dedup = ["Acme", "Beta"] from by decide]
  simp [List.insertionSort, List.orderedInsert,
    show ['A', 'c', 'm', 'e'] ≤ ['B', 'e', 't', 'a'] from by decide]

/-- The grouped sums of scenario A. -/
theorem groupbySum_scenarioA :
    groupbySum Record.name scenarioA = [("Acme", 150), ("Beta", 200)] := by
  rw [groupbySum, groupKeys_scenarioA]
  simp [groupSum, scenarioA]
  norm_num

/-- Scenario A evaluated: top 2 by name. -/
theorem topEntities_scenarioA :
    topEntitiesByFundingSum Record.name 2 scenarioA = [("Beta", 200), ("Acme", 150)] := by
  rw [topEntitiesByFundingSum, groupbySum_scenarioA, nlargestQ]
  rw [show List.insertionSort geQ [("Acme", (150 : ℚ)), ("Beta", 200)]
      = [("Beta", 200), ("Acme", 150)] from by
    simp [List.insertionSort, List.orderedInsert, geQ]
    norm_num]
  rfl

/-- The negative-funding dataset evaluated: the -50 record is included
as-is in the group sum and the ranking. -/
theorem topEntities_negScenario :
    topEntitiesByFundingSum Record.name 1 negScenario = [("Acme", 50)] := by
  rw [topEntitiesByFundingSum, groupbySum]
  rw [show groupKeys Record.name negScenario = ["Acme"] from by
    rw [groupKeys]
    rw [show (negScenario.map Record.name).dedup = ["Acme"] from by decide]
    rfl]
  simp only [List.map_cons, List.map_nil]
  rw [show groupSum Record.name negScenario "Acme" = 50 from by
    simp [groupSum, negScenario]
    norm_num]
  rfl

/-! ### The claims -/

/-- Claim C1: for every normalized dataset and every N,
TopEntitiesByFundingSum returns at most N groups, each paired with the
exact arithmetic sum of its group's coerced funding values, ordered by
summed funding (descending, as Series.nlargest returns them); when N is
at least the number of groups every group is returned; and on the
3-record scenario A the top 2 by name is [(Beta, 200), (Acme, 150)]. -/
theorem claim1_top_entities_by_funding_sum :
    (∀ (key : Record → String) (l : List Record) (n : Nat),
      (topEntitiesByFundingSum key n l).length ≤ n
      ∧ (∀ p ∈ topEntitiesByFundingSum key n l, p.2 = groupSum key l p.1)
      ∧ List.Pairwise geQ (topEntitiesByFundingSum key n l)
      ∧ ((groupKeys key l).length ≤ n →
          ∀ k ∈ groupKeys key l, (k, groupSum key l k) ∈ topEntitiesByFundingSum key n l))
    ∧ topEntitiesByFundingSum Record.name 2 scenarioA = [("Beta", 200), ("Acme", 150)] := by
  refine ⟨fun key l n => ⟨?_, ?_, ?_, ?_⟩, topEntities_scenarioA⟩
  · rw [topEntitiesByFundingSum, nlargestQ, List.length_take]
    exact min_le_left n _
  · exact fun p hp => groupbySum_value key l p (topEntities_mem_groupby key l n p hp)
  · exact (List.sorted_insertionSort geQ (groupbySum key l)).sublist
      (List.take_sublist n _)
  · exact fun hn k hk => topEntities_complete key l n hn k hk

/-- Claim C2: a cell of a configured numeric field that does not parse
as a number (a non-numeric string or a missing cell) normalizes to the
field's zero value, never an error and never a dropped row (the column
keeps its length); a cell holding a valid numeric value normalizes to
the same value for a float-target field, and to its truncation toward
zero for an integer-target field, which is the identity on integral
values. -/
theorem claim2_coercion_policy :
    (∀ (b : Bool) (s : String), normalizeCell b (Cell.str s) = Cell.num 0)
    ∧ (∀ b : Bool, normalizeCell b Cell.na = Cell.num 0)
    ∧ (∀ q : ℚ, normalizeCell false (Cell.num q) = Cell.num q)
    ∧ (∀ q : ℚ, normalizeCell true (Cell.num q) = Cell.num ((truncQ q : ℤ) : ℚ))
    ∧ (∀ n : ℤ, normalizeCell true (Cell.num ((n : ℤ) : ℚ)) = Cell.num ((n : ℤ) : ℚ))
    ∧ (∀ (b : Bool) (cells : List Cell), (normalizeNumCol b cells).length = cells.length) := by
  refine ⟨?_, ?_, ?_, ?_, ?_, ?_⟩
  · intro b s
    cases b <;> simp [normalizeCell, to_numeric_coerce, truncQ_zero]
  · intro b
    cases b <;> simp [normalizeCell, to_numeric_coerce, truncQ_zero]
  · intro q
    simp [normalizeCell, to_numeric_coerce]
  · intro q
    simp [normalizeCell, to_numeric_coerce]
  · intro n
    simp [normalizeCell, to_numeric_coerce, truncQ_intCast]
  · intro b cells
    rw [normalizeNumCol, List.length_map]

/-- Claim C9 counterexample: on a source frame with no
first_funding_year column, app1's load_data synthesizes that column, so
the loaded column set is not the source's column set. -/
theorem claim9_counterexample :
    ("first_funding_year" ∉ colNames [("name", [Cell.str "A"])])
    ∧ "first_funding_year" ∈ colNames (app1_load_data [("name", [Cell.str "A"])]) := by
  decide

/-- Claim C9 as amended: SIAapp's load_data skips configured fields
absent from the source and synthesizes nothing, so its loaded column
set equals the source's; app1's load_data instead always materializes
the three configured numeric columns (synthesizing an all-missing
column when the source lacks one) and otherwise adds nothing: any other
column is present after loading exactly when the source had it. -/
theorem claim9_column_sets :
    (∀ f : Frame, colNames (SIAapp_load_data f) = colNames f)
    ∧ (∀ (f : Frame) (cb : String × Bool), cb ∈ numeric_cols →
        cb.1 ∈ colNames (app1_load_data f))
    ∧ (∀ (f : Frame) (x : String), x ∉ numeric_cols.map Prod.fst →
        (x ∈ colNames (app1_load_data f) ↔ x ∈ colNames f)) := by
  refine ⟨?_, ?_, ?_⟩
  · intro f
    exact colNames_SIAapp_foldl numeric_cols f
  · intro f cb hcb
    rw [mem_colNames_app1_load]
    rw [numeric_cols] at hcb
    simp only [List.mem_cons, List.not_mem_nil, or_false] at hcb
    rcases hcb with rfl | rfl | rfl
    · exact Or.inr (Or.inr (Or.inl rfl))
    · exact Or.inr (Or.inl rfl)
    · exact Or.inl rfl
  · intro f x hx
    rw [mem_colNames_app1_load]
    rw [numeric_cols] at hx
    simp at hx
    constructor
    · rintro (h | h | h | h)
      · exact absurd h hx.2.2
      · exact absurd h hx.2.1
      · exact absurd h hx.1
      · exact h
    · exact fun h => Or.inr (Or.inr (Or.inr h))

/-- Claim C10: normalization does not clamp negatives: a float-target
cell keeps any (in particular negative) parsed value, an integer-target
cell keeps any integral (in particular negative) parsed value, and the
negative value flows into grouped sums and rankings as-is: on the
dataset with Acme funded 100 and -50, the top group sum is
(Acme, 50) and the total is 50. -/
theorem claim10_negative_values :
    (∀ q : ℚ, normalizeCell false (Cell.num q) = Cell.num q)
    ∧ (∀ n : ℤ, normalizeCell true (Cell.num ((n : ℤ) : ℚ)) = Cell.num ((n : ℤ) : ℚ))
    ∧ topEntitiesByFundingSum Record.name 1 negScenario = [("Acme", 50)]
    ∧ totalFunding negScenario = 50 := by
  refine ⟨?_, ?_, topEntities_negScenario, ?_⟩
  · intro q
    simp [normalizeCell, to_numeric_coerce]
  · intro n
    simp [normalizeCell, to_numeric_coerce, truncQ_intCast]
  · rw [totalFunding, negScenario]
    norm_num

/-! ### Lemmas for grouped sums over present country keys -/

/-- Splitting a filtered sum along two mutually exclusive predicates. -/
theorem sum_map_filter_or (f : Record → ℚ) (p q : Record → Bool)
    (hpq : ∀ a, ¬(p a = true ∧ q a = true)) (l : List Record) :
    ((l.filter p).map f).sum + ((l.filter q).map f).sum
      = ((l.filter (fun a => p a || q a)).map f).sum := by
  induction l with
  | nil => simp
  | cons a t ih =>
    rcases Bool.eq_false_or_eq_true (p a) with hp | hp <;>
      rcases Bool.eq_false_or_eq_true (q a) with hq | hq
    · exact absurd ⟨hp, hq⟩ (hpq a)
    · simp [List.filter_cons, hp, hq]
      linarith [ih]
    · simp [List.filter_cons, hp, hq]
      linarith [ih]
    · simpa [List.filter_cons, hp, hq] using ih

/-- Being in the union of the groups of k :: t. -/
theorem hasCountryIn_cons (k : String) (t : List String) (r : Record) :
    hasCountryIn (k :: t) r = (decide (r.country = some k) || hasCountryIn t r) := by
  rcases hr : r.country with _ | c
  · simp [hasCountryIn, hr]
  · by_cases h1 : c = k <;> by_cases h2 : c ∈ t <;>
      simp [hasCountryIn, hr, List.mem_cons, h1, h2]

/-- No record is in the union of zero groups. -/
theorem hasCountryIn_nil (r : Record) : hasCountryIn [] r = false := by
  rcases hr : r.country with _ | c <;> simp [hasCountryIn, hr]

/-- Summing the groups of distinct present-country keys is summing the
records whose country is one of those keys. -/
theorem countrySum_partition (l : List Record) :
    ∀ ks : List String, ks.Nodup →
      (ks.map (fun k => countrySum l k)).sum
        = ((l.filter (hasCountryIn ks)).map Record.funding_total_usd).sum := by
  intro ks hnd
  induction ks with
  | nil =>
    rw [show l.filter (hasCountryIn []) = [] from
      List.filter_eq_nil_iff.mpr (fun a _ => by simp [hasCountryIn_nil])]
    simp
  | cons k t ih =>
    have hkt : k ∉ t := (List.nodup_cons.mp hnd).1
    have hdisj : ∀ a : Record,
        ¬(decide (a.country = some k) = true ∧ hasCountryIn t a = true) := by
      rintro a ⟨h1, h2⟩
      rw [decide_eq_true_eq] at h1
      rw [hasCountryIn, h1] at h2
      exact hkt (by simpa using h2)
    have hsplit := sum_map_filter_or Record.funding_total_usd
      (fun a => decide (a.country = some k)) (hasCountryIn t) hdisj l
    have hcongr : l.filter (fun a => decide (a.country = some k) || hasCountryIn t a)
        = l.filter (hasCountryIn (k :: t)) :=
      List.filter_congr (fun a _ => (hasCountryIn_cons k t a).symm)
    rw [List.map_cons, List.sum_cons, ih (List.nodup_cons.mp hnd).2, countrySum,
      ← hcongr, ← hsplit]

/-- Membership in the union of all present-country groups is having a
present country. -/
theorem hasCountryIn_countryList (l : List Record) (r : Record) (hr : r ∈ l) :
    hasCountryIn ((l.filterMap Record.country).dedup) r = r.country.isSome := by
  rcases hc : r.country with _ | c
  · simp [hasCountryIn, hc]
  · have : c ∈ (l.filterMap Record.country).dedup :=
      List.mem_dedup.mpr (List.mem_filterMap.mpr ⟨r, hr, hc⟩)
    simp [hasCountryIn, hc, this]

/-! ### Lemmas for the funding trend -/

/-- The years of the funding trend are exactly the post-1980 first
funding years of the dataset. -/
theorem mem_trendYears (l : List Record) (y : Int) :
    y ∈ List.insertionSort (fun a b => a ≤ b)
        (((trendFiltered l).map Record.first_funding_year).dedup)
      ↔ ∃ r ∈ l, r.first_funding_year = y ∧ 1980 < y := by
  rw [mem_insertionSort_iff, List.mem_dedup, List.mem_map]
  constructor
  · rintro ⟨r, hr, rfl⟩
    rw [trendFiltered, List.mem_filter] at hr
    exact ⟨r, hr.1, rfl, by simpa using hr.2⟩
  · rintro ⟨r, hr, rfl, hy⟩
    refine ⟨r, ?_, rfl⟩
    rw [trendFiltered, List.mem_filter]
    exact ⟨hr, by simpa using hy⟩

/-! ### Lemmas for status value counts -/

/-- Counting a value among the non-missing cells is counting its
wrapped occurrences among all cells. -/
theorem count_filterMap_some (cells : List (Option String)) (v : String) :
    (cells.filterMap id).count v = cells.count (some v) := by
  induction cells with
  | nil => rfl
  | cons c t ih =>
    cases c with
    | none => simp [List.filterMap_cons, List.count_cons, ih]
    | some w => simp [List.filterMap_cons, List.count_cons, ih]

/-- The rows of value_counts are exactly the distinct non-missing
values, each with its count. -/
theorem mem_value_counts (cells : List (Option String)) (p : String × Nat) :
    p ∈ value_counts cells ↔
      p.1 ∈ (cells.filterMap id).dedup ∧ p.2 = (cells.filterMap id).count p.1 := by
  rw [value_counts, mem_insertionSort_iff]
  constructor
  · intro hp
    obtain ⟨v, hv, rfl⟩ := List.mem_map.1 hp
    exact ⟨hv, rfl⟩
  · rintro ⟨h1, h2⟩
    rcases p with ⟨v, c⟩
    simp only at h1 h2
    subst h2
    exact List.mem_map_of_mem _ h1

/-- Claim C4: on a dataset without a structural status column,
StatusDistribution reports the column unavailable and computes no
counts; on a dataset with the column it returns, per distinct status
value, the exact count of records carrying that value, and an empty
string is its own category rather than being discarded, as the
evaluated example shows. -/
theorem claim4_status_distribution :
    (∀ d : Dataset, d.statusCol = none → statusDistribution d = none)
    ∧ (∀ (d : Dataset) (cells : List (Option String)), d.statusCol = some cells →
        statusDistribution d = some (value_counts cells))
    ∧ (∀ (cells : List (Option String)) (p : String × Nat), p ∈ value_counts cells →
        0 < p.2 ∧ p.2 = cells.count (some p.1))
    ∧ (∀ (cells : List (Option String)) (v : String), some v ∈ cells →
        (v, cells.count (some v)) ∈ value_counts cells)
    ∧ value_counts [some "", some "acquired", some ""] = [("", 2), ("acquired", 1)] := by
  refine ⟨?_, ?_, ?_, ?_, by decide⟩
  · intro d h
    rw [statusDistribution, h]
    rfl
  · intro d cells h
    rw [statusDistribution, h]
    rfl
  · intro cells p hp
    obtain ⟨h1, h2⟩ := (mem_value_counts cells p).1 hp
    refine ⟨?_, by rw [h2, count_filterMap_some]⟩
    rw [h2]
    exact List.count_pos_iff.mpr (List.mem_dedup.mp h1)
  · intro cells v hv
    have h1 : v ∈ (cells.filterMap id).dedup :=
      List.mem_dedup.mpr (List.mem_filterMap.mpr ⟨some v, hv, rfl⟩)
    exact (mem_value_counts cells (v, cells.count (some v))).2
      ⟨h1, (count_filterMap_some cells v).symm⟩

/-- Claim C5: the funding trend contains exactly the post-1980 first
funding years (so the 0 sentinel and every year at most 1980 never
appear), each paired with that year's exact funding sum; the series is
sorted ascending by year; a dataset with no post-1980 record yields the
empty series; and the evaluated example drops both a 1979 record and a
sentinel-0 record. -/
theorem claim5_funding_trend :
    (∀ (l : List Record) (p : Int × ℚ), p ∈ fundingTrend l →
        1980 < p.1 ∧ p.2 = yearSum l p.1)
    ∧ (∀ (l : List Record) (y : Int),
        (y, yearSum l y) ∈ fundingTrend l ↔ ∃ r ∈ l, r.first_funding_year = y ∧ 1980 < y)
    ∧ (∀ l : List Record, List.Pairwise (fun a b : Int × ℚ => a.1 ≤ b.1) (fundingTrend l))
    ∧ (∀ l : List Record, (∀ r ∈ l, r.first_funding_year ≤ 1980) → fundingTrend l = [])
    ∧ fundingTrend [⟨"Old", none, 7, 1, 1979⟩, ⟨"Zero", none, 8, 1, 0⟩,
        ⟨"New", none, 9, 1, 1999⟩] = [(1999, 9)] := by
  refine ⟨?_, ?_, ?_, ?_, ?_⟩
  · intro l p hp
    rw [fundingTrend] at hp
    obtain ⟨y, hy, rfl⟩ := List.mem_map.1 hp
    obtain ⟨r, _, rfl, h1980⟩ := (mem_trendYears l y).1 hy
    exact ⟨h1980, rfl⟩
  · intro l y
    rw [fundingTrend]
    constructor
    · intro h
      obtain ⟨y2, hy2, heq⟩ := List.mem_map.1 h
      have hyy : y2 = y := congrArg Prod.fst heq
      rw [← hyy]
      exact (mem_trendYears l y2).1 hy2
    · intro h
      exact List.mem_map_of_mem _ ((mem_trendYears l y).2 h)
  · intro l
    refine List.Pairwise.map _ (fun a b hab => hab) ?_
    exact List.sorted_insertionSort (fun a b => a ≤ b) _
  · intro l h
    have h0 : trendFiltered l = [] :=
      List.filter_eq_nil_iff.mpr (fun r hr => by simpa using not_lt.mpr (h r hr))
    rw [fundingTrend, h0]
    rfl
  · rw [fundingTrend]
    rw [show ((trendFiltered [⟨"Old", none, 7, 1, 1979⟩, ⟨"Zero", none, 8, 1, 0⟩,
        ⟨"New", none, 9, 1, 1999⟩]).map Record.first_funding_year).dedup = [1999] from by
      decide]
    rw [show List.insertionSort (fun a b : Int => a ≤ b) [1999] = [1999] from rfl]
    simp only [List.map_cons, List.map_nil]
    rw [show yearSum [⟨"Old", none, 7, 1, 1979⟩, ⟨"Zero", none, 8, 1, 0⟩,
        ⟨"New", none, 9, 1, 1999⟩] 1999 = 9 from by
      simp [yearSum, trendFiltered]]

/-- Claim C6 counterexample: a record whose country is missing lands in
no group at all: the grouped country sums of the one-record dataset form
the empty ranking, whose total 0 differs from the dataset's total 100,
so missing-country records are dropped, not kept in an "unknown"
bucket. -/
theorem claim6_counterexample :
    groupbyCountrySum [lostRecord] = []
    ∧ totalFunding [lostRecord] = 100
    ∧ ((groupbyCountrySum [lostRecord]).map Prod.snd).sum ≠ totalFunding [lostRecord] := by
  refine ⟨by decide, ?_, ?_⟩
  · rw [totalFunding, lostRecord]
    norm_num
  · rw [show groupbyCountrySum [lostRecord] = [] from by decide]
    rw [totalFunding, lostRecord]
    norm_num

/-- Claim C6 as amended: grouped country sums cover exactly the records
whose country is present — each present country is a group and each
group's value is its exact sum — while records with a missing country
are silently dropped by the grouping, so the total over all groups
equals the total over the records with a present country (not, in
general, the total over all records). -/
theorem claim6_missing_country_dropped :
    ∀ l : List Record,
      ((groupbyCountrySum l).map Prod.snd).sum
        = totalFunding (l.filter (fun r => r.country.isSome))
      ∧ (∀ k : String,
          (k, countrySum l k) ∈ groupbyCountrySum l ↔ ∃ r ∈ l, r.country = some k) := by
  intro l
  constructor
  · rw [groupbyCountrySum, List.map_map]
    have hperm : ((countryKeys l).map (fun k => countrySum l k)).sum
        = (((l.filterMap Record.country).dedup).map (fun k => countrySum l k)).sum :=
      ((List.perm_insertionSort _ _).map _).sum_eq
    have hpart := countrySum_partition l ((l.filterMap Record.country).dedup)
      (List.nodup_dedup _)
    have hcongr : l.filter (hasCountryIn ((l.filterMap Record.country).dedup))
        = l.filter (fun r => r.country.isSome) :=
      List.filter_congr (fun r hr => hasCountryIn_countryList l r hr)
    have : ((countryKeys l).map (Prod.snd ∘ fun k => (k, countrySum l k))).sum
        = ((countryKeys l).map (fun k => countrySum l k)).sum := rfl
    rw [this, hperm, hpart, hcongr]
    rfl
  · intro k
    rw [groupbyCountrySum]
    constructor
    · intro h
      obtain ⟨k2, hk2, heq⟩ := List.mem_map.1 h
      obtain rfl : k2 = k := congrArg Prod.fst heq
      rw [countryKeys, mem_insertionSort_iff, List.mem_dedup, List.mem_filterMap] at hk2
      exact hk2
    · intro h
      refine List.mem_map_of_mem _ ?_
      rw [countryKeys, mem_insertionSort_iff, List.mem_dedup, List.mem_filterMap]
      exact h

/-- try_load_data probes the candidate paths in order and loads the
first existing one. -/
theorem try_load_eq_find (ex : String → Bool) (ld : String → Option Frame)
    (paths : List String) :
    try_load_data ex ld paths = (paths.find? ex).elim none ld := by
  induction paths with
  | nil => rfl
  | cons p t ih =>
    rw [try_load_data]
    rcases Bool.eq_false_or_eq_true (ex p) with hp | hp
    · rw [if_pos hp, List.find?_cons_of_pos _ hp]
      rfl
    · rw [if_neg (by simp [hp]), ih, List.find?_cons_of_neg _ (by simp [hp])]

/-- Claim C7: the loader probes each candidate path for existence in
list order and loads the first one that exists; when no candidate
exists it returns the no-dataset value (none, not an exception), and in
that case main stops before any analytics section runs. -/
theorem claim7_loader_resolution :
    (∀ (ex : String → Bool) (ld : String → Option Frame) (paths : List String),
      try_load_data ex ld paths = (paths.find? ex).elim none ld
      ∧ ((∀ p ∈ paths, ex p = false) → try_load_data ex ld paths = none))
    ∧ (∀ (ex : String → Bool) (ld : String → Option Frame),
        (∀ p ∈ possible_paths, ex p = false) → SIAapp_main ex ld = MainOutcome.loadFailed)
    ∧ SIAapp_main (fun _ => false) (fun _ => none) = MainOutcome.loadFailed := by
  have hnone : ∀ (ex : String → Bool) (ld : String → Option Frame) (paths : List String),
      (∀ p ∈ paths, ex p = false) → try_load_data ex ld paths = none := by
    intro ex ld paths hall
    rw [try_load_eq_find, List.find?_eq_none.mpr (fun p hp => by simp [hall p hp])]
    rfl
  refine ⟨fun ex ld paths => ⟨try_load_eq_find ex ld paths, hnone ex ld paths⟩, ?_, rfl⟩
  intro ex ld hall
  rw [SIAapp_main, hnone ex ld possible_paths hall]

/-! ### Lemmas for variance and correlation -/

/-- Zipping a list with itself pairs each element with itself. -/
theorem zip_self_eq (xs : List ℚ) : xs.zip xs = xs.map (fun x => (x, x)) := by
  induction xs with
  | nil => rfl
  | cons x t ih => rw [List.zip_cons_cons, ih, List.map_cons]

/-- The variance is a sum of squares. -/
theorem varQ_eq_sum_squares (xs : List ℚ) :
    varQ xs = (xs.map (fun x => (x - meanQ xs) * (x - meanQ xs))).sum := by
  rw [varQ, covQ, zip_self_eq, List.map_map]
  rfl

/-- The variance is nonnegative. -/
theorem varQ_nonneg (xs : List ℚ) : 0 ≤ varQ xs := by
  rw [varQ_eq_sum_squares]
  apply List.sum_nonneg
  intro y hy
  obtain ⟨x, _, rfl⟩ := List.mem_map.1 hy
  exact mul_self_nonneg _

/-- A sample of fewer than two points has zero variance. -/
theorem varQ_short (xs : List ℚ) (h : xs.length < 2) : varQ xs = 0 := by
  rcases xs with _ | ⟨x, _ | ⟨y, t⟩⟩
  · rfl
  · simp [varQ, covQ, meanQ]
  · simp only [List.length_cons] at h
    omega

/-- The self-correlation of a series with nonzero variance is exactly 1. -/
theorem corrQ_self (xs : List ℚ) (h : varQ xs ≠ 0) : corrQ xs xs = some 1 := by
  rw [corrQ, if_neg (by simpa using h)]
  have hv0 : (0 : ℝ) ≤ ((varQ xs : ℚ) : ℝ) := by exact_mod_cast varQ_nonneg xs
  have h1 : pearsonR xs xs = 1 := by
    rw [pearsonR, Real.mul_self_sqrt hv0]
    rw [show covQ xs xs = varQ xs from rfl]
    exact div_self (by exact_mod_cast h)
  rw [h1]

/-- Each matrix entry is the correlation of its two fields. -/
theorem matEntry_eq (l : List Record) (i j : Nat) (hi : i < 3) (hj : j < 3) :
    matEntry l i j = corrQ (fieldAt l i) (fieldAt l j) := by
  interval_cases i <;> interval_cases j <;> rfl

/-- The funding field of the two-record example has nonzero variance. -/
theorem varQ_twoRecords : varQ (fieldAt twoRecords 0) ≠ 0 := by
  norm_num [varQ, covQ, meanQ, fieldAt, corrFields, fundingCol, twoRecords]

/-- Claim C3 counterexample: with exactly one record surviving the
rounds/funding filter, app1's view still computes a correlation (an
undefined NaN one) instead of reporting insufficient data, and SIAapp's
view never reports insufficient data at all, not even when every record
has funding_rounds = 0. -/
theorem claim3_counterexample :
    (filtRF [soloRecord]).length < 2
    ∧ app1_roundsVsFunding [soloRecord] ≠ RoundsVsFundingView.insufficient
    ∧ SIAapp_roundsVsFunding [zeroRoundsRecord] ≠ RoundsVsFundingView.insufficient := by
  refine ⟨by decide, ?_, ?_⟩
  · rw [app1_roundsVsFunding, if_neg (show ¬filtRF [soloRecord] = [] from by decide)]
    exact fun h => RoundsVsFundingView.noConfusion h
  · rw [SIAapp_roundsVsFunding]
    exact fun h => RoundsVsFundingView.noConfusion h

/-- Claim C3 as amended: app1's rounds-vs-funding view reports
insufficient data exactly when zero records survive the filter (in
particular when every record has funding_rounds = 0, as the concrete
conjunct shows); with fewer than two surviving records but at least
one, app1 — and SIAapp always — computes the correlation instead, and
that correlation is the undefined NaN value, never a default number
such as 0.0. -/
theorem claim3_correlation_insufficiency :
    (∀ l : List Record,
      (app1_roundsVsFunding l = RoundsVsFundingView.insufficient ↔ filtRF l = [])
      ∧ ((filtRF l).length < 2 →
          SIAapp_roundsVsFunding l = RoundsVsFundingView.plot
            ((roundsCol (filtRF l)).zip (fundingCol (filtRF l))) none
          ∧ (filtRF l ≠ [] → app1_roundsVsFunding l = RoundsVsFundingView.plot
              ((roundsCol (filtRF l)).zip (fundingCol (filtRF l))) none)))
    ∧ app1_roundsVsFunding [zeroRoundsRecord] = RoundsVsFundingView.insufficient := by
  constructor
  · intro l
    have hv : (filtRF l).length < 2 → varQ (roundsCol (filtRF l)) = 0 := fun hlen =>
      varQ_short _ (by rw [roundsCol, List.length_map]; exact hlen)
    refine ⟨⟨?_, ?_⟩, fun hlen => ⟨?_, fun hne => ?_⟩⟩
    · intro h
      by_contra hne
      rw [app1_roundsVsFunding, if_neg hne] at h
      exact RoundsVsFundingView.noConfusion h
    · intro h
      rw [app1_roundsVsFunding, if_pos h]
    · rw [SIAapp_roundsVsFunding, corrQ, if_pos (Or.inl (hv hlen))]
    · rw [app1_roundsVsFunding, if_neg hne, corrQ, if_pos (Or.inl (hv hlen))]
  · rw [app1_roundsVsFunding, if_pos (show filtRF [zeroRoundsRecord] = [] from by decide)]

/-- Claim C8: in the correlation matrix over the fixed field triple
(funding_total_usd, funding_rounds, first_funding_year), every diagonal
entry of a field with nonzero variance is exactly 1, and any pair
involving a zero-variance field is the explicitly undefined entry
(NaN, modelled none), never a silent 0; on the two-record example the
funding-funding entry is exactly 1. -/
theorem claim8_correlation_matrix :
    (∀ (l : List Record) (i j : Nat), i < 3 → j < 3 →
      (varQ (fieldAt l i) ≠ 0 → matEntry l i i = some 1)
      ∧ ((varQ (fieldAt l i) = 0 ∨ varQ (fieldAt l j) = 0) → matEntry l i j = none))
    ∧ matEntry twoRecords 0 0 = some 1 := by
  refine ⟨fun l i j hi hj => ⟨fun hv => ?_, fun hv => ?_⟩, ?_⟩
  · rw [matEntry_eq l i i hi hi]
    exact corrQ_self _ hv
  · rw [matEntry_eq l i j hi hj, corrQ, if_pos hv]
  · rw [matEntry_eq twoRecords 0 0 (by norm_num) (by norm_num)]
    exact corrQ_self _ varQ_twoRecords

end SIA

